import Mathlib

/-!
Shallow embedding of the check-ai scoring engine, profile resolver, deep
tree walker and check evaluator (src/scorer.mjs, src/tool-profiles.mjs,
src/scanner.mjs), together with theorems settling the frozen claims.

Modelling conventions:
* JavaScript numbers are modelled as exact rationals; `Math.round` is
  `jsRound` (floor of x + 1/2, i.e. round half toward positive infinity).
* Relative filesystem paths produced by the walker are modelled as lists of
  path segments; `path.join`/`path.relative` append segments, and the
  source's check `rel.includes('/')` corresponds to a non-empty directory
  prefix, since `readdirSync` entry names never contain a separator.
* The `section` field of a finding is called `sectionName` (`section` is a
  Lean keyword).
-/

/-- One entry of the findings array, with the fields read by the scoring
engine and the profile resolver (src/scorer.mjs). -/
structure Finding where
  id : String
  label : String
  sectionName : String
  weight : ℚ
  found : Bool
deriving DecidableEq

/-- One row of the grade tier table. -/
structure Tier where
  min : ℚ
  grade : String
  label : String
  color : String
  emoji : String
deriving DecidableEq

/-- TIERS table of src/scorer.mjs, lines 8-15. -/
def TIERS : List Tier := [
  ⟨9, "A+", "Exemplary — fully AI-ready", "green", "🏆"⟩,
  ⟨7, "A", "Strong — AI-ready", "green", "✅"⟩,
  ⟨5, "B", "Decent — partially AI-ready", "yellow", "🔶"⟩,
  ⟨3, "C", "Weak — minimal AI setup", "yellow", "⚠️"⟩,
  ⟨1, "D", "Poor — barely AI-aware", "red", "🔻"⟩,
  ⟨0, "F", "None — not AI-ready", "red", "❌"⟩]

/-- SECTION_ORDER of src/scorer.mjs, lines 18-27. -/
def SECTION_ORDER : List String :=
  ["Repo Hygiene", "Grounding Docs", "Testing", "Agent Configs",
   "AI Context", "Prompts & Skills", "MCP", "AI Deps"]

/-- Per-section aggregate of the score result. -/
structure SectionAgg where
  earned : ℚ
  maxPts : ℚ
  items : List Finding
deriving DecidableEq

/-- JavaScript `Math.round`: round half toward positive infinity. -/
def jsRound (q : ℚ) : ℤ := ⌊q + 1 / 2⌋

/-- `Math.round(q * 10) / 10` — round to one decimal place. -/
def round1 (q : ℚ) : ℚ := (jsRound (q * 10) : ℚ) / 10

/-- Update the ordered section table with one finding, mirroring the loop of
src/scorer.mjs lines 40-46: the aggregate of the finding's section key is
updated in place, and a missing key is appended at the end. -/
def addToSection : List (String × SectionAgg) → String → Finding → List (String × SectionAgg)
  | [], sec, f =>
      [(sec, ⟨if f.found then f.weight else 0, f.weight, [f]⟩)]
  | (k, agg) :: rest, sec, f =>
      if k = sec then
        (k, ⟨agg.earned + (if f.found then f.weight else 0),
             agg.maxPts + f.weight, agg.items ++ [f]⟩) :: rest
      else (k, agg) :: addToSection rest sec f

/-- Result record of `score` (src/scorer.mjs lines 50-61). -/
structure ScoreResult where
  earnedPoints : ℚ
  maxPoints : ℚ
  normalized : ℚ
  grade : String
  label : String
  color : String
  emoji : String
  sections : List (String × SectionAgg)
  foundCount : ℕ
  totalChecks : ℕ
deriving DecidableEq

/-- Fallback tier `TIERS[TIERS.length - 1]` used when the lookup fails. -/
def lastTier : Tier := ⟨0, "F", "None — not AI-ready", "red", "❌"⟩

/-- Tier selection of src/scorer.mjs line 48: first tier whose minimum is at
most the (pre-rounding) normalized value, with the final tier as fallback. -/
def tierFor (n : ℚ) : Tier := ((TIERS.find? fun t => n ≥ t.min).getD lastTier)

/-- The `score` function of src/scorer.mjs lines 29-62.  `normalized` is the
raw ratio scaled to 0-10; the grade tier is selected from this raw value and
only the returned `normalized` field is rounded to one decimal. -/
def score (findings : List Finding) : ScoreResult :=
  let maxPoints := (findings.map Finding.weight).sum
  let earnedPoints := ((findings.filter Finding.found).map Finding.weight).sum
  let normalized := if maxPoints > 0 then earnedPoints / maxPoints * 10 else 0
  let sections :=
    findings.foldl
      (fun acc f =>
        addToSection acc (if f.sectionName = "" then "Other" else f.sectionName) f)
      (SECTION_ORDER.map fun name => (name, (⟨0, 0, []⟩ : SectionAgg)))
  let tier := tierFor normalized
  { earnedPoints := earnedPoints
    maxPoints := maxPoints
    normalized := round1 normalized
    grade := tier.grade
    label := tier.label
    color := tier.color
    emoji := tier.emoji
    sections := sections
    foundCount := (findings.filter Finding.found).length
    totalChecks := findings.length }

/-- The raw (pre-rounding) normalized value computed inside `score`. -/
def scoreRawNormalized (findings : List Finding) : ℚ :=
  let maxPoints := (findings.map Finding.weight).sum
  let earnedPoints := ((findings.filter Finding.found).map Finding.weight).sum
  if maxPoints > 0 then earnedPoints / maxPoints * 10 else 0

/-- Spec-worded grade lookup (spec section 4.4): scan the fixed tier table
from the highest minimum to the lowest and take the first tier whose
minimum is at most the given value. -/
def specGradeScan (n : ℚ) : String :=
  if 9 ≤ n then "A+"
  else if 7 ≤ n then "A"
  else if 5 ≤ n then "B"
  else if 3 ≤ n then "C"
  else if 1 ≤ n then "D"
  else "F"

theorem tierFor_grade (n : ℚ) : (tierFor n).grade = specGradeScan n := by
  unfold tierFor specGradeScan
  simp only [TIERS, List.find?, ge_iff_le]
  by_cases h9 : (9:ℚ) ≤ n <;> by_cases h7 : (7:ℚ) ≤ n <;> by_cases h5 : (5:ℚ) ≤ n <;>
    by_cases h3 : (3:ℚ) ≤ n <;> by_cases h1 : (1:ℚ) ≤ n <;> by_cases h0 : (0:ℚ) ≤ n <;>
    simp [h9, h7, h5, h3, h1, h0, lastTier]

theorem score_grade_eq (fs : List Finding) :
    (score fs).grade = specGradeScan (scoreRawNormalized fs) := by
  rw [show (score fs).grade = (tierFor (scoreRawNormalized fs)).grade from rfl]
  exact tierFor_grade _

theorem specGradeScan_mem (n : ℚ) :
    specGradeScan n ∈ ["A+", "A", "B", "C", "D", "F"] := by
  unfold specGradeScan
  split_ifs <;> simp

/-- Findings used to refute claim C3: earned 179 of 200 gives the raw
normalized value 8.95, graded 'A' by the code, while the rounded
`normalized` field is 9.0, whose tier per the claim would be 'A+'. -/
def exC3 : List Finding :=
  [⟨"a", "a", "Testing", 179, true⟩, ⟨"b", "b", "Testing", 21, false⟩]

/-- C3 counterexample: the grade in `score`'s result is computed from the
raw (pre-rounding) normalized value, not from the rounded `normalized`
field of the result as the claim states.  On `exC3` the code returns grade
'A' with `normalized = 9.0`, but the first tier whose minimum is at most
9.0 is 'A+'. -/
theorem spec_C3_counterexample :
    (score exC3).grade = "A" ∧ specGradeScan ((score exC3).normalized) = "A+" ∧
      (score exC3).grade ≠ specGradeScan ((score exC3).normalized) := by
  have h1 : (score exC3).grade = "A" := by
    norm_num [score, exC3, tierFor, TIERS, lastTier, round1, jsRound, specGradeScan,
      List.find?]
  have h2 : specGradeScan ((score exC3).normalized) = "A+" := by
    norm_num [score, exC3, tierFor, TIERS, lastTier, round1, jsRound, specGradeScan,
      List.find?]
  refine ⟨h1, h2, ?_⟩
  rw [h1, h2]
  decide

/-- C3 (amended): the grade in `score`'s result is the first tier, scanned
from highest minimum to lowest in the fixed table (9 A+, 7 A, 5 B, 3 C,
1 D, 0 F), whose minimum is at most the raw normalized score — the value
before rounding to one decimal place — and the lookup is total: every
finding list receives exactly one of the six grades. -/
theorem spec_C3_amended (fs : List Finding) :
    (score fs).grade = specGradeScan (scoreRawNormalized fs) ∧
      (score fs).grade ∈ ["A+", "A", "B", "C", "D", "F"] :=
  ⟨score_grade_eq fs, (score_grade_eq fs) ▸ specGradeScan_mem _⟩

theorem list_sum_filter_le (l : List Finding) (h : ∀ f ∈ l, 0 ≤ f.weight) :
    ((l.filter Finding.found).map Finding.weight).sum ≤ (l.map Finding.weight).sum := by
  induction l with
  | nil => simp
  | cons f t ih =>
    have hf : 0 ≤ f.weight := h f (List.mem_cons_self _ _)
    have ht : ∀ g ∈ t, 0 ≤ g.weight := fun g hg => h g (List.mem_cons_of_mem _ hg)
    cases hb : f.found with
    | true => simpa [List.filter_cons, hb] using add_le_add_left (ih ht) f.weight
    | false =>
      simp only [List.filter_cons, hb, List.map, List.sum_cons]
      calc ((t.filter Finding.found).map Finding.weight).sum ≤ (t.map Finding.weight).sum :=
            ih ht
        _ ≤ f.weight + (t.map Finding.weight).sum := le_add_of_nonneg_left hf

theorem list_sum_nonneg' (l : List ℚ) (h : ∀ x ∈ l, 0 ≤ x) : 0 ≤ l.sum := by
  induction l with
  | nil => simp
  | cons a t ih =>
    simp only [List.sum_cons]
    exact add_nonneg (h a (List.mem_cons_self _ _))
      (ih fun x hx => h x (List.mem_cons_of_mem _ hx))

theorem round1_bounds (x : ℚ) (h0 : 0 ≤ x) (h10 : x ≤ 10) :
    0 ≤ round1 x ∧ round1 x ≤ 10 := by
  unfold round1 jsRound
  have hlo : (0:ℤ) ≤ ⌊x * 10 + 1 / 2⌋ := Int.floor_nonneg.mpr (by linarith)
  have hhi : ⌊x * 10 + 1 / 2⌋ ≤ 100 := by
    have : ⌊x * 10 + 1 / 2⌋ ≤ ⌊(201/2 : ℚ)⌋ := Int.floor_le_floor (by linarith)
    have h201 : ⌊(201/2 : ℚ)⌋ = 100 := by norm_num [Int.floor_eq_iff]
    omega
  constructor
  · have : (0:ℚ) ≤ (⌊x * 10 + 1 / 2⌋ : ℚ) := by exact_mod_cast hlo
    linarith
  · have : ((⌊x * 10 + 1 / 2⌋ : ℤ) : ℚ) ≤ 100 := by exact_mod_cast hhi
    linarith

theorem scoreRawNormalized_bounds (fs : List Finding) (h : ∀ f ∈ fs, 0 ≤ f.weight) :
    0 ≤ scoreRawNormalized fs ∧ scoreRawNormalized fs ≤ 10 := by
  unfold scoreRawNormalized
  have hmax : 0 ≤ (fs.map Finding.weight).sum :=
    list_sum_nonneg' _ (by
      intro x hx
      obtain ⟨f, hf, rfl⟩ := List.mem_map.mp hx
      exact h f hf)
  have hearn : 0 ≤ ((fs.filter Finding.found).map Finding.weight).sum :=
    list_sum_nonneg' _ (by
      intro x hx
      obtain ⟨f, hf, rfl⟩ := List.mem_map.mp hx
      exact h f (List.mem_of_mem_filter hf))
  have hle := list_sum_filter_le fs h
  by_cases hpos : (fs.map Finding.weight).sum > 0
  · simp only [hpos, if_pos]
    constructor
    · positivity
    · have hdiv : ((fs.filter Finding.found).map Finding.weight).sum /
          (fs.map Finding.weight).sum ≤ 1 := (div_le_one hpos).mpr hle
      nlinarith
  · simp [hpos]

/-- C4: with non-negative weights, `score` returns `maxPoints` equal to the
sum of all weights, `earnedPoints` equal to the sum of the weights of the
found findings, `0 ≤ earnedPoints ≤ maxPoints`, the returned (rounded)
`normalized` value lies in [0, 10], and `normalized = 0` when
`maxPoints = 0`. -/
theorem spec_C4 (fs : List Finding) (h : ∀ f ∈ fs, 0 ≤ f.weight) :
    (score fs).maxPoints = (fs.map Finding.weight).sum ∧
      (score fs).earnedPoints = ((fs.filter Finding.found).map Finding.weight).sum ∧
      0 ≤ (score fs).earnedPoints ∧
      (score fs).earnedPoints ≤ (score fs).maxPoints ∧
      0 ≤ (score fs).normalized ∧ (score fs).normalized ≤ 10 ∧
      ((score fs).maxPoints = 0 → (score fs).normalized = 0) := by
  have hearn : 0 ≤ ((fs.filter Finding.found).map Finding.weight).sum :=
    list_sum_nonneg' _ (by
      intro x hx
      obtain ⟨f, hf, rfl⟩ := List.mem_map.mp hx
      exact h f (List.mem_of_mem_filter hf))
  have hraw := scoreRawNormalized_bounds fs h
  have hnorm : (score fs).normalized = round1 (scoreRawNormalized fs) := rfl
  have hb := round1_bounds _ hraw.1 hraw.2
  refine ⟨rfl, rfl, hearn, list_sum_filter_le fs h, hnorm ▸ hb.1, hnorm ▸ hb.2, ?_⟩
  intro hmax0
  have hmp : (score fs).maxPoints = (fs.map Finding.weight).sum := rfl
  have hraw0 : scoreRawNormalized fs = 0 := by
    unfold scoreRawNormalized
    rw [hmp] at hmax0
    simp [hmax0]
  rw [hnorm, hraw0]
  norm_num [round1, jsRound, Int.floor_eq_iff]

/-- Findings used as the concrete witness input for C4. -/
def exC4 : List Finding := [⟨"a", "a", "Testing", 5, true⟩, ⟨"b", "b", "MCP", 3, false⟩]

/-- Witness for C4 at a concrete findings list. -/
theorem spec_C4_witness :
    (∀ f ∈ exC4, 0 ≤ f.weight) ∧
      ((score exC4).maxPoints = (exC4.map Finding.weight).sum ∧
        (score exC4).earnedPoints = ((exC4.filter Finding.found).map Finding.weight).sum ∧
        0 ≤ (score exC4).earnedPoints ∧
        (score exC4).earnedPoints ≤ (score exC4).maxPoints ∧
        0 ≤ (score exC4).normalized ∧ (score exC4).normalized ≤ 10 ∧
        ((score exC4).maxPoints = 0 → (score exC4).normalized = 0)) :=
  ⟨by decide, spec_C4 exC4 (by decide)⟩

/-- JavaScript `s.startsWith(pre)`, modelled as a prefix test on the
character data. -/
def jsStartsWith (s pre : String) : Bool := pre.data.isPrefixOf s.data

/-- JavaScript `s.endsWith(suf)`, modelled as a suffix test on the
character data. -/
def jsEndsWith (s suf : String) : Bool := suf.data.isSuffixOf s.data

/-- A tool profile from src/tool-profiles.mjs. -/
structure ToolProfile where
  name : String
  description : String
  icon : String
  required : List String
  valuable : List String
  alternatives : List (String × String)
  notApplicable : List String
deriving DecidableEq

/-- The `clio` profile (src/tool-profiles.mjs lines 17-67). -/
def clioProfile : ToolProfile where
  name := "CLIO"
  description := "Perl-based AI coding assistant with long-term memory"
  icon := "💻"
  required := ["clio-dir", "clio-instructions"]
  valuable := ["clio-ltm", "clio-memory", "clio-sessions", "agents-md", "agents-md-quality",
    "readme", "readme-quality", "test-dir", "docs-dir", "architecture-doc",
    "conventions-doc", "contributing", "git-repo", "gitignore", "ci-config", "license"]
  alternatives := [("agents-md", "clio-instructions")]
  notApplicable := ["cursorrules", "cursor-rules-dir", "cursorignore", "cursorindexingignore",
    "windsurfrules", "windsurf-rules-dir", "windsurf-skills", "windsurf-workflows",
    "claude-md", "claude-dir", "claude-settings", "claude-commands",
    "copilot-instructions", "copilot-instructions-dir", "copilotignore",
    "codex-dir", "codex-md", "gemini-dir", "aider-conf", "roo-dir",
    "continue-config", "amp-config", "junie-guidelines", "entire-dir",
    "opencode-json", "opencode-dir", "zed-rules", "trae-rules",
    "clinerules", "goosehints", "amazonq-rules", "augment-rules", "qodo-config",
    "mcp-json", "mcp-json-quality", "mcp-dir",
    "ai-deps",
    "aiignore", "coderabbit", "codeiumignore", "aiderignore"]

/-- The `cursor` profile (src/tool-profiles.mjs lines 72-110). -/
def cursorProfile : ToolProfile where
  name := "Cursor"
  description := "AI-first code editor"
  icon := "🖱️"
  required := ["has-any-agent-tool"]
  valuable := ["cursorrules", "cursor-rules-dir", "cursorignore", "cursorindexingignore",
    "agents-md", "agents-md-quality", "readme", "readme-quality", "test-dir", "docs-dir",
    "architecture-doc", "conventions-doc", "contributing", "git-repo", "gitignore"]
  alternatives := [("cursorrules", "cursor-rules-dir"), ("agents-md", "cursorrules")]
  notApplicable := ["clio-dir", "clio-instructions", "clio-ltm", "clio-memory", "clio-sessions",
    "windsurfrules", "windsurf-rules-dir", "windsurf-skills", "windsurf-workflows",
    "claude-md", "claude-dir", "claude-settings", "claude-commands",
    "codex-dir", "codex-md", "gemini-dir", "aider-conf", "roo-dir",
    "continue-config", "junie-guidelines", "entire-dir",
    "opencode-json", "opencode-dir", "zed-rules", "trae-rules",
    "clinerules", "goosehints", "amazonq-rules", "augment-rules", "qodo-config"]

/-- The `claude` profile (src/tool-profiles.mjs lines 115-153). -/
def claudeProfile : ToolProfile where
  name := "Claude Code"
  description := "Anthropic Claude terminal assistant"
  icon := "🧠"
  required := ["has-any-agent-tool"]
  valuable := ["claude-md", "claude-dir", "claude-settings", "claude-commands",
    "agents-md", "agents-md-quality", "readme", "readme-quality", "test-dir", "docs-dir",
    "architecture-doc", "conventions-doc", "contributing", "git-repo", "gitignore",
    "mcp-json", "mcp-json-quality"]
  alternatives := [("claude-md", "agents-md")]
  notApplicable := ["clio-dir", "clio-instructions", "clio-ltm", "clio-memory", "clio-sessions",
    "cursorrules", "cursor-rules-dir", "cursorignore", "cursorindexingignore",
    "windsurfrules", "windsurf-rules-dir", "windsurf-skills", "windsurf-workflows",
    "codex-dir", "codex-md", "gemini-dir", "aider-conf", "roo-dir",
    "continue-config", "junie-guidelines", "entire-dir",
    "opencode-json", "opencode-dir", "zed-rules", "trae-rules",
    "clinerules", "goosehints", "amazonq-rules", "augment-rules", "qodo-config"]

/-- The `windsurf` profile (src/tool-profiles.mjs lines 158-197). -/
def windsurfProfile : ToolProfile where
  name := "Windsurf"
  description := "Codeium AI IDE"
  icon := "🏄"
  required := ["has-any-agent-tool"]
  valuable := ["windsurfrules", "windsurf-rules-dir", "windsurf-skills", "windsurf-workflows",
    "agents-md", "agents-md-quality", "readme", "readme-quality", "test-dir", "docs-dir",
    "architecture-doc", "conventions-doc", "contributing", "git-repo", "gitignore",
    "codeiumignore", "skill-md"]
  alternatives := [("windsurfrules", "windsurf-rules-dir"), ("agents-md", "windsurfrules")]
  notApplicable := ["clio-dir", "clio-instructions", "clio-ltm", "clio-memory", "clio-sessions",
    "cursorrules", "cursor-rules-dir", "cursorignore", "cursorindexingignore",
    "claude-md", "claude-dir", "claude-settings", "claude-commands",
    "codex-dir", "codex-md", "gemini-dir", "aider-conf", "roo-dir",
    "continue-config", "junie-guidelines", "entire-dir",
    "opencode-json", "opencode-dir", "zed-rules", "trae-rules",
    "clinerules", "goosehints", "amazonq-rules", "augment-rules", "qodo-config"]

/-- The `copilot` profile (src/tool-profiles.mjs lines 202-236). -/
def copilotProfile : ToolProfile where
  name := "GitHub Copilot"
  description := "GitHub AI pair programmer"
  icon := "🤖"
  required := ["has-any-agent-tool"]
  valuable := ["copilot-instructions", "copilot-instructions-dir", "copilotignore",
    "agents-md", "agents-md-quality", "readme", "readme-quality", "test-dir", "docs-dir",
    "git-repo", "gitignore", "instructions-md"]
  alternatives := [("copilot-instructions", "agents-md")]
  notApplicable := ["clio-dir", "clio-instructions", "clio-ltm", "clio-memory", "clio-sessions",
    "cursorrules", "cursor-rules-dir", "cursorignore", "cursorindexingignore",
    "windsurfrules", "windsurf-rules-dir", "windsurf-skills", "windsurf-workflows",
    "claude-md", "claude-dir", "claude-settings", "claude-commands",
    "codex-dir", "codex-md", "gemini-dir", "aider-conf", "roo-dir",
    "continue-config", "junie-guidelines", "entire-dir",
    "opencode-json", "opencode-dir", "zed-rules", "trae-rules",
    "clinerules", "goosehints", "amazonq-rules", "augment-rules", "qodo-config"]

/-- TOOL_PROFILES of src/tool-profiles.mjs, in `Object.entries` order. -/
def TOOL_PROFILES : List (String × ToolProfile) :=
  [("clio", clioProfile), ("cursor", cursorProfile), ("claude", claudeProfile),
   ("windsurf", windsurfProfile), ("copilot", copilotProfile)]

/-- `new Map(findings.map(f => [f.id, f])).get(id)` — a JavaScript Map built
from key-value pairs keeps the last entry for a duplicated key. -/
def getFinding (findings : List Finding) (id : String) : Option Finding :=
  findings.foldl (fun acc f => if f.id = id then some f else acc) none

/-- `const f = findingMap.get(id); return f && f.found` — a missing finding
counts as not found. -/
def foundB (findings : List Finding) (id : String) : Bool :=
  match getFinding findings id with
  | some f => f.found
  | none => false

/-- `findingMap.get(id)?.label || id` — label of the finding for an id, with
the id itself as fallback when the finding is missing or its label is the
empty string (falsy). -/
def labelFor (findings : List Finding) (id : String) : String :=
  match getFinding findings id with
  | some f => if f.label = "" then id else f.label
  | none => id

/-- The alternative-satisfaction counter of src/scorer.mjs lines 159-167:
one increment per pair of which either member is found.  The source
computes this value inside `scoreForTool` but never uses it — it does not
appear in the returned record. -/
def alternativeBonus (findings : List Finding) (profile : ToolProfile) : ℕ :=
  profile.alternatives.foldl
    (fun acc ab => if foundB findings ab.1 || foundB findings ab.2 then acc + 1 else acc) 0

/-- Result record of `scoreForTool` (src/scorer.mjs lines 184-209). -/
structure ToolScoreResult where
  toolKey : String
  name : String
  icon : String
  description : String
  percentage : ℤ
  normalized : ℚ
  grade : String
  color : String
  requiredPassed : ℕ
  requiredTotal : ℕ
  requiredChecks : List (String × Bool × String)
  valuablePassed : ℕ
  valuableTotal : ℕ
  earned : ℕ
  maxPts : ℕ
  applicableChecks : ℕ
deriving DecidableEq

/-- Body of `scoreForTool` (src/scorer.mjs lines 138-209) after the profile
lookup: scores a findings list against one profile.  Note that `required`
and `valuable` are used as given — they are not filtered against
`notApplicable`, which is only used for the `applicableChecks` count. -/
def scoreForToolProfile (findings : List Finding) (toolKey : String)
    (profile : ToolProfile) : ToolScoreResult :=
  let applicableFindings := findings.filter fun f => !profile.notApplicable.contains f.id
  let requiredPassed := profile.required.filter fun id => foundB findings id
  let valuablePassed := profile.valuable.filter fun id => foundB findings id
  let requiredMax := profile.required.length * 2
  let valuableMax := profile.valuable.length
  let totalMax := requiredMax + valuableMax
  let requiredEarned := requiredPassed.length * 2
  let valuableEarned := valuablePassed.length
  let totalEarned := requiredEarned + valuableEarned
  let percentage : ℤ :=
    if totalMax > 0 then jsRound ((totalEarned : ℚ) / (totalMax : ℚ) * 100) else 0
  let normalized : ℚ :=
    if totalMax > 0 then (jsRound ((totalEarned : ℚ) / (totalMax : ℚ) * 10 * 10) : ℚ) / 10
    else 0
  let tier := tierFor normalized
  { toolKey := toolKey
    name := profile.name
    icon := profile.icon
    description := profile.description
    percentage := percentage
    normalized := normalized
    grade := tier.grade
    color := tier.color
    requiredPassed := requiredPassed.length
    requiredTotal := profile.required.length
    requiredChecks := profile.required.map fun id => (id, foundB findings id, labelFor findings id)
    valuablePassed := valuablePassed.length
    valuableTotal := profile.valuable.length
    earned := totalEarned
    maxPts := totalMax
    applicableChecks := applicableFindings.length }

/-- `scoreForTool(findings, toolKey)` — null when the key is unknown. -/
def scoreForTool (findings : List Finding) (toolKey : String) : Option ToolScoreResult :=
  (TOOL_PROFILES.find? fun kp => kp.1 = toolKey).map
    fun kp => scoreForToolProfile findings toolKey kp.2

/-- Per-profile detection condition of `detectConfiguredTools`
(src/tool-profiles.mjs lines 261-280): all required checks found, or some
valuable check whose id starts with the profile key (or the key followed by
a dash) found. -/
def detectCond (findings : List Finding) (kp : String × ToolProfile) : Bool :=
  kp.2.required.all (fun id => foundB findings id) ||
    (kp.2.valuable.filter fun id =>
      jsStartsWith id kp.1 || jsStartsWith id (kp.1 ++ "-")).any fun id => foundB findings id

/-- `detectConfiguredTools(findings)` (src/tool-profiles.mjs lines 257-283):
the keys of the profiles whose detection condition holds, in table order. -/
def detectConfiguredTools (findings : List Finding) : List String :=
  (TOOL_PROFILES.filter fun kp => detectCond findings kp).map Prod.fst

/-- Profile with the restriction claim C1 describes: ids in `notApplicable`
removed from `required` and `valuable`. -/
def profileWithoutNA (p : ToolProfile) : ToolProfile :=
  { p with
    required := p.required.filter fun id => !p.notApplicable.contains id
    valuable := p.valuable.filter fun id => !p.notApplicable.contains id }

/-- Profile used to refute claim C1: the id "x" is in `notApplicable` and
also in `required`. -/
def pC1 : ToolProfile := ⟨"t", "", "", ["x"], [], [], ["x"]⟩

/-- Findings list for the C1 counterexample: the check "x" is found. -/
def fsC1 : List Finding := [⟨"x", "x", "Testing", 1, true⟩]

/-- C1 counterexample: `scoreForTool` does not remove `notApplicable` ids
from `required`/`valuable`; on a profile listing "x" in both `required` and
`notApplicable` the id still contributes 2 points to both `totalMax` and
`totalEarned` (removing it as the claim demands would give 0). -/
theorem spec_C1_counterexample :
    "x" ∈ pC1.notApplicable ∧ "x" ∈ pC1.required ∧
      (scoreForToolProfile fsC1 "t" pC1).maxPts = 2 ∧
      (scoreForToolProfile fsC1 "t" pC1).earned = 2 ∧
      (scoreForToolProfile fsC1 "t" (profileWithoutNA pC1)).maxPts = 0 ∧
      (scoreForToolProfile fsC1 "t" (profileWithoutNA pC1)).earned = 0 := by
  decide

/-- C1 (amended): for every profile actually defined in `TOOL_PROFILES`,
the `notApplicable` list is disjoint from `required` and `valuable`, and
hence removing the `notApplicable` ids from `required`/`valuable` leaves
the whole tool score (totalMax and totalEarned included) unchanged for
every findings list.  In general the code does not perform this removal:
`notApplicable` only filters the `applicableChecks` count. -/
theorem spec_C1_amended (findings : List Finding) (key : String) (profile : ToolProfile)
    (h : (key, profile) ∈ TOOL_PROFILES) :
    (∀ id ∈ profile.notApplicable, id ∉ profile.required ∧ id ∉ profile.valuable) ∧
      scoreForToolProfile findings key (profileWithoutNA profile) =
        scoreForToolProfile findings key profile := by
  have hcases : (key, profile) = ("clio", clioProfile) ∨
      (key, profile) = ("cursor", cursorProfile) ∨
      (key, profile) = ("claude", claudeProfile) ∨
      (key, profile) = ("windsurf", windsurfProfile) ∨
      (key, profile) = ("copilot", copilotProfile) := by
    simpa [TOOL_PROFILES] using h
  rcases hcases with h' | h' | h' | h' | h'
  all_goals obtain ⟨rfl, rfl⟩ := Prod.mk.injEq .. ▸ h'
  all_goals constructor
  case _ => decide
  case _ => rw [show profileWithoutNA clioProfile = clioProfile from by decide]
  case _ => decide
  case _ => rw [show profileWithoutNA cursorProfile = cursorProfile from by decide]
  case _ => decide
  case _ => rw [show profileWithoutNA claudeProfile = claudeProfile from by decide]
  case _ => decide
  case _ => rw [show profileWithoutNA windsurfProfile = windsurfProfile from by decide]
  case _ => decide
  case _ => rw [show profileWithoutNA copilotProfile = copilotProfile from by decide]

/-- Witness for C1 (amended) at the clio profile and an empty findings
list. -/
theorem spec_C1_amended_witness :
    ("clio", clioProfile) ∈ TOOL_PROFILES ∧
      ((∀ id ∈ clioProfile.notApplicable,
          id ∉ clioProfile.required ∧ id ∉ clioProfile.valuable) ∧
        scoreForToolProfile [] "clio" (profileWithoutNA clioProfile) =
          scoreForToolProfile [] "clio" clioProfile) :=
  ⟨by decide, spec_C1_amended [] "clio" clioProfile (by decide)⟩

theorem foldl_count {α : Type} (c : α → Bool) :
    ∀ (l : List α) (n : ℕ),
      l.foldl (fun acc x => if c x then acc + 1 else acc) n = n + (l.filter c).length := by
  intro l
  induction l with
  | nil => simp
  | cons a t ih =>
    intro n
    cases hc : c a
    · simp [List.filter_cons, hc, ih]
    · simp [List.filter_cons, hc, ih]
      omega

/-- C2: the alternatives pairs never affect the tool score: replacing the
alternatives list changes nothing in the result (so percentage, normalized,
grade, earned and max are all unaffected); the alternative-satisfaction
counter counts exactly the pairs of which either member is found and is not
folded into the result; and the score is requiredEarned + valuableEarned
over requiredMax + valuableMax. -/
theorem spec_C2 (findings : List Finding) (key : String) (profile : ToolProfile)
    (alts : List (String × String)) :
    scoreForToolProfile findings key { profile with alternatives := alts } =
        scoreForToolProfile findings key profile ∧
      alternativeBonus findings profile =
        (profile.alternatives.filter fun ab =>
          foundB findings ab.1 || foundB findings ab.2).length ∧
      (scoreForToolProfile findings key profile).earned =
        (profile.required.filter fun id => foundB findings id).length * 2 +
          (profile.valuable.filter fun id => foundB findings id).length ∧
      (scoreForToolProfile findings key profile).maxPts =
        profile.required.length * 2 + profile.valuable.length := by
  refine ⟨rfl, ?_, rfl, rfl⟩
  have h := foldl_count (fun ab : String × String => foundB findings ab.1 || foundB findings ab.2)
    profile.alternatives 0
  rw [Nat.zero_add] at h
  exact h

/-- Findings list used to refute claim C9: only the check id "cursorrules"
is found. -/
def fsC9 : List Finding := [⟨"cursorrules", "x", "Agent Configs", 6, true⟩]

/-- C9 counterexample: detection uses `id.startsWith(key)` rather than the
claimed `id === key || id.startsWith(key + '-')`.  With only "cursorrules"
found, the cursor profile is reported as configured although none of its
required checks is found and no valuable id namespaced as the claim
describes is found. -/
theorem spec_C9_counterexample :
    "cursor" ∈ detectConfiguredTools fsC9 ∧
      (cursorProfile.required.all fun id => foundB fsC9 id) = false ∧
      ((cursorProfile.valuable.filter fun id =>
          id == "cursor" || jsStartsWith id "cursor-").any fun id => foundB fsC9 id) = false := by
  decide

theorem mem_detect_iff (findings : List Finding) (key : String) :
    key ∈ detectConfiguredTools findings ↔
      ∃ p, (key, p) ∈ TOOL_PROFILES ∧ detectCond findings (key, p) = true := by
  simp [detectConfiguredTools, List.mem_map, List.mem_filter]

theorem detect_key_iff (findings : List Finding) (key : String) (profile : ToolProfile)
    (h : (key, profile) ∈ TOOL_PROFILES)
    (hk : ∀ kp ∈ TOOL_PROFILES, kp.1 = key → kp = (key, profile)) :
    (key ∈ detectConfiguredTools findings ↔ detectCond findings (key, profile) = true) := by
  rw [mem_detect_iff]
  constructor
  · rintro ⟨p, hmem, hc⟩
    have hp : (key, p) = (key, profile) := hk (key, p) hmem rfl
    have : p = profile := congrArg Prod.snd hp
    rwa [this] at hc
  · intro hc
    exact ⟨profile, h, hc⟩

/-- C9 (amended): a profile of `TOOL_PROFILES` is reported as configured if
and only if all of its required check ids are found, or at least one id in
its valuable list that *starts with* the profile key (the code's condition;
`id.startsWith(key + '-')` is the redundant second disjunct) is found.  The
claim's narrower namespacing condition `id === key || id.startsWith(key +
'-')` is not what the code tests. -/
theorem spec_C9_amended (findings : List Finding) (key : String) (profile : ToolProfile)
    (h : (key, profile) ∈ TOOL_PROFILES) :
    key ∈ detectConfiguredTools findings ↔
      ((profile.required.all fun id => foundB findings id) = true ∨
        ∃ id ∈ profile.valuable,
          (jsStartsWith id key || jsStartsWith id (key ++ "-")) = true ∧
            foundB findings id = true) := by
  have hkiff : key ∈ detectConfiguredTools findings ↔
      detectCond findings (key, profile) = true := by
    have hcases : (key, profile) = ("clio", clioProfile) ∨
        (key, profile) = ("cursor", cursorProfile) ∨
        (key, profile) = ("claude", claudeProfile) ∨
        (key, profile) = ("windsurf", windsurfProfile) ∨
        (key, profile) = ("copilot", copilotProfile) := by
      simpa [TOOL_PROFILES] using h
    rcases hcases with h' | h' | h' | h' | h'
    all_goals obtain ⟨rfl, rfl⟩ := Prod.mk.injEq .. ▸ h'
    all_goals exact detect_key_iff findings _ _ (by decide) (by decide)
  rw [hkiff]
  simp [detectCond, List.any_eq_true, List.all_eq_true, List.mem_filter, and_comm]

/-- Witness for C9 (amended): the claude profile on a findings list where
CLAUDE.md is found. -/
theorem spec_C9_amended_witness :
    ("claude", claudeProfile) ∈ TOOL_PROFILES ∧
      ("claude" ∈ detectConfiguredTools [⟨"claude-md", "CLAUDE.md", "Agent Configs", 8, true⟩] ↔
        ((claudeProfile.required.all fun id =>
            foundB [⟨"claude-md", "CLAUDE.md", "Agent Configs", 8, true⟩] id) = true ∨
          ∃ id ∈ claudeProfile.valuable,
            (jsStartsWith id "claude" || jsStartsWith id ("claude" ++ "-")) = true ∧
              foundB [⟨"claude-md", "CLAUDE.md", "Agent Configs", 8, true⟩] id = true)) :=
  ⟨by decide, spec_C9_amended _ "claude" claudeProfile (by decide)⟩

/-- SKIP_DIRS of src/scanner.mjs lines 6-26 — directory names ignored
during tree walks (JavaScript `Set.has` is modelled as list membership). -/
def SKIP_DIRS : List String :=
  ["node_modules", "vendor", "dist", "build", ".git",
   "__pycache__", ".next", ".nuxt", ".output", "coverage",
   ".turbo", ".vercel", ".netlify", ".cache", ".parcel-cache",
   "target", "out", "bin", "obj"]

/-- A filesystem tree as seen through `readdirSync(dir, withFileTypes)`:
an entry is a file or a directory with its own entries, in listing order. -/
inductive FsEntry where
  | file : String → FsEntry
  | dir : String → List FsEntry → FsEntry

/-- Matching rule of src/scanner.mjs line 85: a file name matches pattern
`p` when it equals `p` or ends with `p`. -/
def matchesPattern (name p : String) : Bool := name == p || jsEndsWith name p

/-- Hidden-directory allowlist of src/scanner.mjs lines 94-100: a directory
is entered when it is not dot-prefixed or is one of the five allowlisted
AI-tool directories. -/
def allowDirName (name : String) : Bool :=
  !jsStartsWith name "." || name == ".claude" || name == ".agents" ||
    name == ".windsurf" || name == ".cursor" || name == ".github"

mutual

/-- One entry of the `walk` loop body of `deepScan` (src/scanner.mjs lines
78-105).  A file whose name is in SKIP_DIRS is skipped (the skip applies to
every entry, files included); a matching file is recorded under each
matching pattern as the segment path `pre ++ [name]`, except when `pre` is
empty — the source's root-level check `rel.includes('/')`. -/
def walkEntry (patterns : List String) (maxDepth : ℕ) :
    FsEntry → ℕ → List String → List (String × List String)
  | .file name, _depth, pre =>
      if name ∈ SKIP_DIRS then []
      else if pre = [] then []
      else (patterns.filter fun p => matchesPattern name p).map fun p => (p, pre ++ [name])
  | .dir name children, depth, pre =>
      if name ∈ SKIP_DIRS then []
      else if allowDirName name then
        if depth + 1 > maxDepth then []
        else walkList patterns maxDepth children (depth + 1) (pre ++ [name])
      else []

/-- The `walk` recursion over a directory listing; the `depth > maxDepth`
guard at the entry of the source's `walk` is the `depth + 1 > maxDepth`
test of `walkEntry` (the root call at depth 0 can never exceed it). -/
def walkList (patterns : List String) (maxDepth : ℕ) :
    List FsEntry → ℕ → List String → List (String × List String)
  | [], _, _ => []
  | e :: es, depth, pre =>
      walkEntry patterns maxDepth e depth pre ++ walkList patterns maxDepth es depth pre

end

/-- `deepScan(rootDir, patterns, maxDepth = 6)` of src/scanner.mjs lines
61-110, as the flat list of (pattern, segment path) matches in walk
order. -/
def deepScan (root : List FsEntry) (patterns : List String) (maxDepth : ℕ) :
    List (String × List String) :=
  walkList patterns maxDepth root 0 []

/-- The per-pattern match list `results[p]` of `deepScan`. -/
def deepScanResults (root : List FsEntry) (patterns : List String) (maxDepth : ℕ)
    (p : String) : List (List String) :=
  ((deepScan root patterns maxDepth).filter fun m => m.1 = p).map Prod.snd

mutual

theorem walkEntry_shape (patterns : List String) (maxDepth : ℕ) :
    ∀ (e : FsEntry) (depth : ℕ) (pre : List String) (p : String) (segs : List String),
      (p, segs) ∈ walkEntry patterns maxDepth e depth pre →
      ∃ mid name, segs = pre ++ mid ++ [name] ∧ pre ++ mid ≠ [] ∧
        ∀ s ∈ mid, s ∉ SKIP_DIRS
  | .file name, depth, pre, p, segs, h => by
    rw [walkEntry] at h
    split_ifs at h with h1 h2
    · simp at h
    · simp at h
    · simp only [List.mem_map, List.mem_filter] at h
      obtain ⟨q, _, hq⟩ := h
      have hsegs : segs = pre ++ [name] := (congrArg Prod.snd hq).symm
      subst hsegs
      exact ⟨[], name, by simp, by simpa using h2, by simp⟩
  | .dir name children, depth, pre, p, segs, h => by
    rw [walkEntry] at h
    split_ifs at h with h1 h2 h3
    · simp at h
    · simp at h
    · obtain ⟨mid, nm, hseg, _, hmid⟩ :=
        walkList_shape patterns maxDepth children (depth + 1) (pre ++ [name]) p segs h
      refine ⟨name :: mid, nm, by simpa using hseg, by simp, ?_⟩
      intro s hs
      rcases List.mem_cons.mp hs with rfl | hs'
      · exact h1
      · exact hmid s hs'
    · simp at h

theorem walkList_shape (patterns : List String) (maxDepth : ℕ) :
    ∀ (es : List FsEntry) (depth : ℕ) (pre : List String) (p : String) (segs : List String),
      (p, segs) ∈ walkList patterns maxDepth es depth pre →
      ∃ mid name, segs = pre ++ mid ++ [name] ∧ pre ++ mid ≠ [] ∧
        ∀ s ∈ mid, s ∉ SKIP_DIRS
  | [], depth, pre, p, segs, h => by rw [walkList] at h; simp at h
  | e :: es, depth, pre, p, segs, h => by
    rw [walkList] at h
    rcases List.mem_append.mp h with h' | h'
    · exact walkEntry_shape patterns maxDepth e depth pre p segs h'
    · exact walkList_shape patterns maxDepth es depth pre p segs h'

end

/-- C5: every match returned by the deep tree walker lies strictly below
the root (its segment path has at least two segments, i.e. the relative
path contains a separator) and none of its directory segments is in the
SKIP_DIRS denylist. -/
theorem spec_C5 (root : List FsEntry) (patterns : List String) (maxDepth : ℕ)
    (p : String) (segs : List String)
    (h : (p, segs) ∈ deepScan root patterns maxDepth) :
    2 ≤ segs.length ∧ ∀ s ∈ segs.dropLast, s ∉ SKIP_DIRS := by
  obtain ⟨mid, name, hseg, hne, hmid⟩ :=
    walkList_shape patterns maxDepth root 0 [] p segs h
  simp only [List.nil_append] at hseg hne
  subst hseg
  constructor
  · have : mid ≠ [] := hne
    have : 1 ≤ mid.length := List.length_pos.mpr this
    simp [List.length_append]
    omega
  · intro s hs
    rw [List.dropLast_concat] at hs
    exact hmid s hs

/-- Witness for C5 at a concrete tree with one nested match. -/
theorem spec_C5_witness :
    (("AGENTS.md", ["src", "AGENTS.md"]) ∈
        deepScan [.dir "src" [.file "AGENTS.md"]] ["AGENTS.md"] 6) ∧
      (2 ≤ (["src", "AGENTS.md"] : List String).length ∧
        ∀ s ∈ (["src", "AGENTS.md"] : List String).dropLast, s ∉ SKIP_DIRS) :=
  ⟨by decide, spec_C5 [.dir "src" [.file "AGENTS.md"]] ["AGENTS.md"] 6 "AGENTS.md"
    ["src", "AGENTS.md"] (by decide)⟩

/-- Tree used to refute claim C6: a file named "bin" (a SKIP_DIRS name)
inside the ordinary directory "sub". -/
def exC6tree : List FsEntry := [.dir "sub" [.file "bin"]]

/-- C6 counterexample: the SKIP_DIRS check of the walk loop applies to
*files* as well as directories (src/scanner.mjs line 79 runs before the
`isFile` branch).  The file "bin" matches the pattern "bin" under the
claimed rule, yet the walker records nothing for it. -/
theorem spec_C6_counterexample :
    matchesPattern "bin" "bin" = true ∧
      deepScanResults exC6tree ["bin"] 6 "bin" = [] ∧
      ("bin", ["sub", "bin"]) ∉ walkEntry ["bin"] 6 (.file "bin") 1 ["sub"] := by
  decide

/-- C6 (amended): a file entry encountered during the walk is recorded as a
match for pattern `p` if and only if its name is not in the SKIP_DIRS
denylist (which the source applies to every directory entry, files
included), the file is below the root, `p` was requested, and the name
equals `p` or ends with `p`. -/
theorem spec_C6_amended (patterns : List String) (maxDepth depth : ℕ)
    (name : String) (pre : List String) (p : String) :
    (p, pre ++ [name]) ∈ walkEntry patterns maxDepth (.file name) depth pre ↔
      (name ∉ SKIP_DIRS ∧ pre ≠ [] ∧ p ∈ patterns ∧ matchesPattern name p = true) := by
  rw [walkEntry]
  split_ifs with h1 h2
  · simp [h1]
  · simp [h2]
  · simp only [List.mem_map, List.mem_filter, Prod.mk.injEq]
    constructor
    · rintro ⟨q, ⟨hq, hm⟩, rfl, -⟩
      exact ⟨h1, h2, hq, hm⟩
    · rintro ⟨-, -, hp, hm⟩
      exact ⟨p, ⟨hp, hm⟩, rfl, trivial⟩

mutual

theorem walkEntry_depth (patterns : List String) (maxDepth : ℕ) :
    ∀ (e : FsEntry) (depth : ℕ) (pre : List String) (p : String) (segs : List String),
      depth ≤ maxDepth →
      (p, segs) ∈ walkEntry patterns maxDepth e depth pre →
      segs.length ≤ pre.length + (maxDepth + 1 - depth)
  | .file name, depth, pre, p, segs, hd, h => by
    rw [walkEntry] at h
    split_ifs at h with h1 h2
    · simp at h
    · simp at h
    · simp only [List.mem_map, List.mem_filter] at h
      obtain ⟨q, -, hq⟩ := h
      have hsegs : segs = pre ++ [name] := congrArg Prod.snd hq.symm
      subst hsegs
      simp [List.length_append]
      omega
  | .dir name children, depth, pre, p, segs, hd, h => by
    rw [walkEntry] at h
    split_ifs at h with h1 h2 h3
    · simp at h
    · simp at h
    · push_neg at h3
      have ih := walkList_depth patterns maxDepth children (depth + 1) (pre ++ [name])
        p segs h3 h
      simp only [List.length_append, List.length_cons, List.length_nil] at ih ⊢
      omega
    · simp at h

theorem walkList_depth (patterns : List String) (maxDepth : ℕ) :
    ∀ (es : List FsEntry) (depth : ℕ) (pre : List String) (p : String) (segs : List String),
      depth ≤ maxDepth →
      (p, segs) ∈ walkList patterns maxDepth es depth pre →
      segs.length ≤ pre.length + (maxDepth + 1 - depth)
  | [], depth, pre, p, segs, hd, h => by rw [walkList] at h; simp at h
  | e :: es, depth, pre, p, segs, hd, h => by
    rw [walkList] at h
    rcases List.mem_append.mp h with h' | h'
    · exact walkEntry_depth patterns maxDepth e depth pre p segs hd h'
    · exact walkList_depth patterns maxDepth es depth pre p segs hd h'

end

/-- Tree for the C7 scenario: the pattern file is present at nesting depth
3 (under d1/d2/d3) and at nesting depth 7 (under e1/.../e7). -/
def exC7tree : List FsEntry :=
  [.dir "d1" [.dir "d2" [.dir "d3" [.file "AGENTS.md"]]],
   .dir "e1" [.dir "e2" [.dir "e3" [.dir "e4"
     [.dir "e5" [.dir "e6" [.dir "e7" [.file "AGENTS.md"]]]]]]]]

/-- C7: the traversal is bounded by maxDepth — every recorded match lies at
most maxDepth + 1 segments deep, so the contents of directories nested more
than maxDepth levels below the root never appear; concretely, with the
default maxDepth of 6, a pattern present at nesting depth 3 and at nesting
depth 7 yields only the depth-3 hit. -/
theorem spec_C7 :
    (∀ (root : List FsEntry) (patterns : List String) (maxDepth : ℕ)
        (p : String) (segs : List String),
      (p, segs) ∈ deepScan root patterns maxDepth → segs.length ≤ maxDepth + 1) ∧
      deepScanResults exC7tree ["AGENTS.md"] 6 "AGENTS.md" =
        [["d1", "d2", "d3", "AGENTS.md"]] := by
  constructor
  · intro root patterns maxDepth p segs h
    have := walkList_depth patterns maxDepth root 0 [] p segs (Nat.zero_le _) h
    simpa using this
  · decide

/-- Witness for C7 at the nested membership hypothesis of its first
conjunct. -/
theorem spec_C7_witness :
    (("AGENTS.md", ["d1", "d2", "d3", "AGENTS.md"]) ∈
        deepScan exC7tree ["AGENTS.md"] 6) ∧
      (["d1", "d2", "d3", "AGENTS.md"] : List String).length ≤ 6 + 1 :=
  ⟨by decide, spec_C7.1 exC7tree ["AGENTS.md"] 6 "AGENTS.md"
    ["d1", "d2", "d3", "AGENTS.md"] (by decide)⟩

/-- Kind of an existing filesystem path: regular file, directory, or
anything else (socket, fifo, ...). -/
inductive PathKind where
  | file : PathKind
  | dir : PathKind
  | other : PathKind
deriving DecidableEq

/-- The filesystem as seen by the check evaluator's probes, keyed by the
candidate's relative path (the `join(rootDir, p)` of the source is
absorbed into the key).  `kind p = none` models `existsSync` false.
`lineCount` and `dirItemCount` model the defensive counters of
src/scanner.mjs lines 124-140, which already return 0 on any read
error. -/
structure FsModel where
  kind : String → Option PathKind
  lineCount : String → ℕ
  dirItemCount : String → ℕ

/-- Detail string of the standard probe (src/scanner.mjs lines 234-236):
line count for a file, item count for a directory, and unchanged (null)
for an existing path of any other kind. -/
def probeDetail (fs : FsModel) (p : String) : Option String :=
  match fs.kind p with
  | some PathKind.file => some (toString (fs.lineCount p) ++ " line(s)")
  | some PathKind.dir => some (toString (fs.dirItemCount p) ++ " item(s)")
  | _ => none

/-- Standard file / dir probe of src/scanner.mjs lines 228-239: the first
candidate path for which `existsSync` is true wins, whatever its kind. -/
def standardProbe (fs : FsModel) : List String → Option String × Option String
  | [] => (none, none)
  | p :: rest =>
      if (fs.kind p).isSome then (some p, probeDetail fs p) else standardProbe fs rest

/-- `existsAny` of src/scanner.mjs lines 142-146: the kind of an existing
path, and null when it is missing or neither file nor directory. -/
def existsAnyKind (fs : FsModel) (p : String) : Option PathKind :=
  match fs.kind p with
  | some PathKind.file => some PathKind.file
  | some PathKind.dir => some PathKind.dir
  | _ => none

/-- The `any`-type probe of src/scanner.mjs lines 211-225: the first
candidate that exists as a file or directory wins. -/
def anyProbe (fs : FsModel) : List String → Option String × Option String
  | [] => (none, none)
  | p :: rest =>
      match existsAnyKind fs p with
      | some PathKind.file => (some p, some (toString (fs.lineCount p) ++ " line(s)"))
      | some PathKind.dir => (some p, some (toString (fs.dirItemCount p) ++ " item(s)"))
      | _ => anyProbe fs rest

/-- The `type` field of a check definition. -/
inductive CheckType where
  | file : CheckType
  | dir : CheckType
  | any : CheckType
  | custom : CheckType
  | deepScan : CheckType
deriving DecidableEq

/-- A check definition as consumed by `scan` (src/scanner.mjs): `custom` is
the custom-handler key of `custom`-type checks; `deepPattern` the pattern
of `deep-scan` checks. -/
structure Check where
  id : String
  label : String
  sectionName : String
  description : String
  weight : ℚ
  type : CheckType
  paths : List String
  deepPattern : Option String
  custom : Option String
deriving DecidableEq

/-- Value produced by an audit module's `analyze` for one custom key; its
fields are spread verbatim into the finding.  `matchList` embeds the
source's `matches` field (`matches` is a Lean keyword). -/
structure CustomResult where
  found : Bool
  detail : Option String := none
  matchList : Option (List String) := none
deriving DecidableEq

/-- A finding produced by the evaluator loop of `scan`: the check's own
fields (kept whole here) plus the evaluation fields; a field never
assigned by the taken branch stays `none` (undefined). -/
structure EvalFinding where
  check : Check
  found : Bool
  matchedPath : Option String := none
  detail : Option String := none
  matchList : Option (List String) := none
deriving DecidableEq

/-- The per-check body of the evaluator loop of `scan` (src/scanner.mjs
lines 187-242): deep-scan checks read the pre-computed results
(`deepResults[check.deepPattern] || []`); custom checks with a present
handler entry spread it into the finding; `any` checks use the kinded
probe; everything else — including a custom check whose key has no entry —
falls through to the standard path probe. -/
def evalCheck (fs : FsModel) (handlers : String → Option CustomResult)
    (deepResults : String → List String) (c : Check) : EvalFinding :=
  if c.type = CheckType.deepScan then
    let ms := match c.deepPattern with
      | some pat => deepResults pat
      | none => []
    { check := c, found := decide (0 < ms.length), matchList := some ms,
      detail := if 0 < ms.length then some (toString ms.length ++ " file(s) found")
        else none }
  else
    match (if c.type = CheckType.custom then c.custom.bind handlers else none) with
    | some r => { check := c, found := r.found, detail := r.detail, matchList := r.matchList }
    | none =>
      if c.type = CheckType.any then
        let pr := anyProbe fs c.paths
        { check := c, found := pr.1.isSome, matchedPath := pr.1, detail := pr.2 }
      else
        let pr := standardProbe fs c.paths
        { check := c, found := pr.1.isSome, matchedPath := pr.1, detail := pr.2 }

/-- Phase 2 of `scan`: one finding per check definition, in order. -/
def scanFindings (fs : FsModel) (handlers : String → Option CustomResult)
    (deepResults : String → List String) (checks : List Check) : List EvalFinding :=
  checks.map (evalCheck fs handlers deepResults)

/-- Spec-worded candidate resolution (spec section 4.3): the first path
that exists *as the required kind*. -/
def specKindedFirst (fs : FsModel) (k : PathKind) (paths : List String) : Option String :=
  paths.find? fun p => fs.kind p == some k

theorem standardProbe_eq (fs : FsModel) (l : List String) :
    standardProbe fs l =
      ((l.find? fun p => (fs.kind p).isSome),
        (l.find? fun p => (fs.kind p).isSome).bind fun p => probeDetail fs p) := by
  induction l with
  | nil => simp [standardProbe, List.find?]
  | cons p rest ih =>
    by_cases h : (fs.kind p).isSome <;> simp [standardProbe, List.find?, h, ih]

/-- Filesystem refuting claim C8: the single candidate "somedir" exists as
a directory with 3 items. -/
def fsC8 : FsModel :=
  ⟨fun p => if p = "somedir" then some PathKind.dir else none, fun _ => 0, fun _ => 3⟩

/-- A `file`-type check whose only candidate is "somedir". -/
def checkC8 : Check :=
  ⟨"c8", "c8", "Testing", "", 1, CheckType.file, ["somedir"], none, none⟩

/-- C8 counterexample: the standard probe of the evaluator tests bare
existence (`existsSync`), not the kind required by the check's type — a
candidate existing as the *wrong* kind still wins.  The `file`-type check
`checkC8` matches the directory "somedir" (found, with an item-count
detail), while the claimed kind-respecting resolution finds nothing. -/
theorem spec_C8_counterexample :
    (evalCheck fsC8 (fun _ => none) (fun _ => []) checkC8).found = true ∧
      (evalCheck fsC8 (fun _ => none) (fun _ => []) checkC8).matchedPath = some "somedir" ∧
      (evalCheck fsC8 (fun _ => none) (fun _ => []) checkC8).detail = some "3 item(s)" ∧
      checkC8.type = CheckType.file ∧ fsC8.kind "somedir" = some PathKind.dir ∧
      specKindedFirst fsC8 PathKind.file checkC8.paths = none := by
  decide

/-- C8 (amended): for a check of type `file` or `dir` the evaluator walks
the candidate paths in order and the first path that *exists* wins,
regardless of its kind; the finding records that path and a detail of its
line count when it is a file, its item count when it is a directory (the
counters are 0 on any read error), and no detail otherwise. -/
theorem spec_C8_amended (fs : FsModel) (handlers : String → Option CustomResult)
    (deepResults : String → List String) (c : Check)
    (h : c.type = CheckType.file ∨ c.type = CheckType.dir) :
    (evalCheck fs handlers deepResults c).found =
        (c.paths.find? fun p => (fs.kind p).isSome).isSome ∧
      (evalCheck fs handlers deepResults c).matchedPath =
        (c.paths.find? fun p => (fs.kind p).isSome) ∧
      (evalCheck fs handlers deepResults c).detail =
        ((c.paths.find? fun p => (fs.kind p).isSome).bind fun p => probeDetail fs p) := by
  have h1 : c.type ≠ CheckType.deepScan := by rcases h with h | h <;> simp [h]
  have h2 : c.type ≠ CheckType.custom := by rcases h with h | h <;> simp [h]
  have h3 : c.type ≠ CheckType.any := by rcases h with h | h <;> simp [h]
  simp [evalCheck, h1, h2, h3, standardProbe_eq]

/-- Filesystem for the C8 witness: "README.md" exists as a 12-line file. -/
def fsC8w : FsModel :=
  ⟨fun p => if p = "README.md" then some PathKind.file else none, fun _ => 12, fun _ => 0⟩

/-- A `file`-type check probing "README.md" then "readme.md". -/
def checkC8w : Check :=
  ⟨"readme", "README.md", "Grounding Docs", "", 5, CheckType.file,
    ["README.md", "readme.md"], none, none⟩

/-- Witness for C8 (amended) at a concrete check and filesystem. -/
theorem spec_C8_amended_witness :
    (checkC8w.type = CheckType.file ∨ checkC8w.type = CheckType.dir) ∧
      ((evalCheck fsC8w (fun _ => none) (fun _ => []) checkC8w).found =
          (checkC8w.paths.find? fun p => (fsC8w.kind p).isSome).isSome ∧
        (evalCheck fsC8w (fun _ => none) (fun _ => []) checkC8w).matchedPath =
          (checkC8w.paths.find? fun p => (fsC8w.kind p).isSome) ∧
        (evalCheck fsC8w (fun _ => none) (fun _ => []) checkC8w).detail =
          ((checkC8w.paths.find? fun p => (fsC8w.kind p).isSome).bind fun p =>
            probeDetail fsC8w p)) :=
  ⟨Or.inl rfl, spec_C8_amended fsC8w (fun _ => none) (fun _ => []) checkC8w (Or.inl rfl)⟩

/-- C10: a custom-type check whose key has no entry in the merged
custom-results table falls through to the generic path probe; with an
empty candidate list the produced finding has `found = false`,
`matchedPath = null` and `detail = null` — and the evaluator still
produces exactly one finding per definition. -/
theorem spec_C10 (fs : FsModel) (handlers : String → Option CustomResult)
    (deepResults : String → List String) (c : Check)
    (h1 : c.type = CheckType.custom) (h2 : c.custom.bind handlers = none)
    (h3 : c.paths = []) :
    evalCheck fs handlers deepResults c =
        { check := c, found := false, matchedPath := none, detail := none,
          matchList := none } ∧
      ∀ checks : List Check,
        (scanFindings fs handlers deepResults checks).length = checks.length := by
  constructor
  · simp [evalCheck, h1, h2, h3, standardProbe]
  · intro checks
    simp [scanFindings]

/-- A custom check whose key "mystery" has no handler entry. -/
def checkC10 : Check :=
  ⟨"c10", "c10", "Testing", "", 4, CheckType.custom, [], none, some "mystery"⟩

/-- Witness for C10 at a concrete orphan custom check. -/
theorem spec_C10_witness :
    (checkC10.type = CheckType.custom ∧
        checkC10.custom.bind (fun _ => (none : Option CustomResult)) = none ∧
        checkC10.paths = []) ∧
      (evalCheck fsC8w (fun _ => none) (fun _ => []) checkC10 =
          { check := checkC10, found := false, matchedPath := none, detail := none,
            matchList := none } ∧
        ∀ checks : List Check,
          (scanFindings fsC8w (fun _ => none) (fun _ => []) checks).length = checks.length) :=
  ⟨⟨rfl, rfl, rfl⟩, spec_C10 fsC8w (fun _ => none) (fun _ => []) checkC10 rfl rfl rfl⟩
